import Mathlib

/-!
Verification of the synchronization core of gh-stars-exporter (src/main.go).

The Go program is shallowly embedded: machine-level concerns (HTTP, SQLite)
become explicit oracles, and each Go function becomes an executable Lean
definition with the same name and the same branching structure.
-/

namespace GhStars

/-- Model of Go `sql.NullString` (a string plus a validity bit). -/
structure NullString where
  string : String
  valid : Bool
  deriving DecidableEq, Repr

/-- The `Repository` record of src/main.go (lines 67-83).  `time.Time`
fields are modelled as `Nat` (epoch instants); the `Topics` field holds the
decoded `StringList`; `Readme` is the nullable README column. -/
structure Repository where
  ID : Nat
  Name : String
  HTMLURL : String
  Description : String
  CreatedAt : Nat
  UpdatedAt : Nat
  PushedAt : Nat
  StargazersCount : Nat
  Language : String
  FullName : String
  Topics : List String
  IsTemplate : Bool
  Private : Bool
  StarredAt : Nat
  Readme : NullString
  deriving DecidableEq, Repr

/-- Wire-level `StarredRepo` (src/main.go lines 62-65): a repository paired
with the starred-at timestamp. -/
structure StarredRepo where
  Repo : Repository
  StarredAt : Nat
  deriving DecidableEq, Repr

/-- A Go `[]string`, as used for the `Topics` column. -/
abbrev StringList := List String

namespace StringList

/-- `StringList.Value` (src/main.go lines 87-89): `strings.Join(sl, ",")`.
Go strings are modelled at the character-list level; the returned driver
error is always nil in the source and is omitted. -/
def Value (sl : StringList) : String :=
  String.mk (List.intercalate [','] (sl.map String.data))

/-- The dynamic `driver.Value` handed to `Scan`: SQL NULL, a string, or a
value that does not convert to a string. -/
inductive DriverValue
  | null
  | str (s : String)
  | other
  deriving DecidableEq

/-- `StringList.Scan` (src/main.go lines 91-105): nil sets the list to nil,
a string is split with `strings.Split(v, ",")`, anything else is an error. -/
def Scan : DriverValue → Except String StringList
  | DriverValue.null => Except.ok []
  | DriverValue.str s => Except.ok ((s.data.splitOn ',').map String.mk)
  | DriverValue.other => Except.error "failed to scan StringList"

end StringList

/-- The fixed ordered candidate list `readmeFiles` (src/main.go lines 30-52). -/
def readmeFiles : List String :=
  ["README.md", "README.rst", "docs/README.md", ".github/README.md",
   "README.adoc", "README.markdown", "README.rdoc", "README.txt", "README",
   "readme.md", "Readme.md", "README.MD", "readme", "Readme", "readme.rst",
   "Readme.rst", "README.org", "Readme.org", "readme.org", "docs/Readme.md",
   "docs/readme.md"]

deriving instance DecidableEq for Except

/-- Outcome of one content probe for one candidate path.  `newReqErr` is a
failure of `http.NewRequest` (src/main.go lines 350-353): the resolver
returns that error at once, before any request is issued.  `doErr` is a
transport-level failure of `client.Do` (lines 358-361): the loop moves on
to the next candidate.  `resp` is a response carrying its status code and
the outcome that reading its body would produce; the body is only read —
and a read failure (for example a `Client.Timeout` expiring during the
body read) only matters — when the status is 200. -/
inductive ProbeOutcome
  | newReqErr (msg : String)
  | doErr (msg : String)
  | resp (status : Nat) (readBody : Except String String)
  deriving DecidableEq

/-- Probe outcomes the loop skips, moving on to the next candidate: a
`client.Do` failure or a response with a non-success status. -/
def probeSkipped : ProbeOutcome → Bool
  | ProbeOutcome.newReqErr _ => false
  | ProbeOutcome.doErr _ => true
  | ProbeOutcome.resp status _ => status != 200

/-- `getReadmeContent` (src/main.go lines 345-374), generalized over the
candidate list it walks (the source walks `readmeFiles`).  `probe` gives
the outcome of the single GET attempted for a candidate path; the first
component counts the requests performed (`client.Do` calls).  Branch for
branch with the source: an `http.NewRequest` failure returns that error
immediately (line 352); a `client.Do` failure moves on to the next
candidate (line 360); on a 200 response the body is read, a read failure
returning that error at once (line 367) and a clean read returning the
body (line 369); any other status falls through to the next candidate; an
exhausted list yields the "no readme found" error (line 373). -/
def getReadmeContent (probe : String → ProbeOutcome) : List String → Nat × Except String String
  | [] => (0, Except.error "no readme found")
  | f :: rest =>
    match probe f with
    | ProbeOutcome.newReqErr e => (0, Except.error e)
    | ProbeOutcome.doErr _ =>
      let r := getReadmeContent probe rest
      (r.1 + 1, r.2)
    | ProbeOutcome.resp status readBody =>
      if status = 200 then
        match readBody with
        | Except.error e => (1, Except.error e)
        | Except.ok content => (1, Except.ok content)
      else
        let r := getReadmeContent probe rest
        (r.1 + 1, r.2)

/-- Go `strings.Split(s, sep)` for a one-character separator, at the level
of Lean strings: split the character list around each separator. -/
def goSplit (sep : Char) (s : String) : List String :=
  (s.data.splitOn sep).map String.mk

/-- Go `strings.TrimSpace`: drop leading and trailing whitespace. -/
def goTrimSpace (s : String) : String :=
  String.mk (((s.data.dropWhile Char.isWhitespace).reverse.dropWhile Char.isWhitespace).reverse)

/-- Go `strings.Trim(s, cutset)`: drop leading and trailing characters that
belong to the cutset. -/
def goTrim (cutset : List Char) (s : String) : String :=
  String.mk (((s.data.dropWhile (fun c => cutset.contains c)).reverse.dropWhile
    (fun c => cutset.contains c)).reverse)

/-- `getNextPageURL` (src/main.go lines 306-321): split the Link header on
commas, split each entry on semicolons, and for the first entry of exactly
two parts whose trimmed second part is `rel="next"` return the first part
trimmed of spaces and angle brackets; otherwise return the empty string. -/
def getNextPageURL (linkHeader : String) : String :=
  if linkHeader = "" then ""
  else
    match (goSplit ',' linkHeader).findSome? (fun link =>
      match goSplit ';' link with
      | [p0, p1] =>
        if goTrimSpace p1 = "rel=\"next\"" then some (goTrim ['<', '>'] (goTrimSpace p0))
        else none
      | _ => none) with
    | some u => u
    | none => ""

/-- The response the environment produces for one page GET: either a
transport-level `client.Do` error, or a response carrying a status code, a
decode outcome for the JSON body, and the Link header. -/
structure PageResp where
  status : Nat
  body : Except String (List StarredRepo)
  link : String

/-- Outcome of fetching one page URL. -/
inductive FetchOutcome
  | doErr (msg : String)
  | resp (r : PageResp)

/-- Result of the page walk: `fuelOut` is the model artifact for exhausted
fuel; `done err` is the Go return value of `fetchAllStarredRepos`, where
`none` models returning a nil error. -/
inductive WalkResult
  | fuelOut
  | done (err : Option String)
  deriving DecidableEq

/-- The starting collection URL (src/main.go line 254). -/
def startURL : String := "https://api.github.com/user/starred?per_page=100"

/-- `fetchAllStarredRepos` (src/main.go lines 253-303), fuel-indexed.  The
iterator threads a consumer state of type `σ` (in the program it is the
closure over the store and the tallies) and may return an error.  The walk
returns the final consumer state, the pages handed to the iterator in
order (tagged with the URL they were fetched from), and the Go return
value.  Branches mirror the source: a transport error returns that error; a
non-200 status executes `return err` at a point where `err` is nil, so the
walk stops with a nil error; a decode error returns it; an iterator error
returns it; otherwise the walk continues with the URL extracted by
`getNextPageURL`, and stops once that URL is empty. -/
def fetchAllStarredRepos {σ : Type} (remote : String → FetchOutcome)
    (iterator : List StarredRepo → σ → σ × Option String) :
    Nat → String → σ → σ × List (String × List StarredRepo) × WalkResult
  | 0, _, st => (st, [], WalkResult.fuelOut)
  | fuel + 1, url, st =>
    if url = "" then (st, [], WalkResult.done none)
    else
      match remote url with
      | FetchOutcome.doErr e => (st, [], WalkResult.done (some e))
      | FetchOutcome.resp r =>
        if r.status ≠ 200 then (st, [], WalkResult.done none)
        else
          match r.body with
          | Except.error e => (st, [], WalkResult.done (some e))
          | Except.ok repos =>
            let nxt := getNextPageURL r.link
            match iterator repos st with
            | (st1, some e) => (st1, [(url, repos)], WalkResult.done (some e))
            | (st1, none) =>
              let res := fetchAllStarredRepos remote iterator fuel nxt st1
              (res.1, (url, repos) :: res.2.1, res.2.2)

/-- The configuration flags consumed by the core (src/main.go lines 396-410). -/
structure Config where
  storePrivate : Bool
  skipUpdate : Bool
  jsonFlag : Bool
  getReadme : Bool
  deriving DecidableEq

/-- The environment the process runs against: whether the database file
already exists, the remote paged collection, the outcome `getReadmeContent`
produces for a repository's full name, and whether the store lookup for a
given id fails with a database error. -/
structure Env where
  dbFileExists : Bool
  remote : String → FetchOutcome
  readmeOf : String → Except String String
  lookupFail : Nat → Bool

/-- The mutable state of one synchronization run: the store contents, the
two global counters `newStars` and `updatedStars` (src/main.go lines
141-142), and an instrumentation counter of store lookups performed. -/
structure SyncState where
  store : List Repository
  newStars : Nat
  updatedStars : Nat
  lookups : Nat
  deriving DecidableEq, Repr

/-- `stars.Find(db.Cond{"id": ...}).One` (src/main.go line 183-185): the
first stored record with the given id, if any. -/
def findRepo (store : List Repository) (i : Nat) : Option Repository :=
  store.find? (fun r => r.ID == i)

/-- `res.Update(r)` against the result set `Find(db.Cond{"id": i})`:
replace every stored record with that id. -/
def updateById (store : List Repository) (i : Nat) (r : Repository) : List Repository :=
  store.map (fun x => if x.ID == i then r else x)

/-- `addNewRepo` (src/main.go lines 212-227): when enrichment is on, try to
resolve a README, keeping the record unenriched if that fails; then insert.
The id column is the primary key, so inserting an id that is already stored
fails; a successful insert increments the global `newStars`. -/
def addNewRepo (cfg : Config) (env : Env) (repo : Repository) (st : SyncState) :
    SyncState × Option String :=
  let repo1 :=
    if cfg.getReadme then
      match env.readmeOf repo.FullName with
      | Except.error _ => repo
      | Except.ok rd => { repo with Readme := { string := rd, valid := true } }
    else repo
  match findRepo st.store repo1.ID with
  | some _ => (st, some "UNIQUE constraint failed: starred_repos.id")
  | none => ({ st with store := st.store ++ [repo1], newStars := st.newStars + 1 }, none)

/-- `updateRepoReadme` (src/main.go lines 229-251): if the stored record
already has a valid README, do nothing; otherwise resolve a README, do
nothing on failure, and on success persist the record with the README
attached and increment the global `updatedStars`.  The caller at
src/main.go line 188 ignores the returned error, so only the state is
modelled. -/
def updateRepoReadme (env : Env) (r : Repository) (st : SyncState) : SyncState :=
  if r.Readme.valid then st
  else
    match env.readmeOf r.FullName with
    | Except.error _ => st
    | Except.ok rd =>
      let r1 := { r with Readme := { string := rd, valid := true } }
      { st with store := updateById st.store r1.ID r1, updatedStars := st.updatedStars + 1 }

/-- The page callback passed to `fetchAllStarredRepos` by `main`
(src/main.go lines 174-197).  For each record: copy the starred-at
timestamp into the record; skip private records unless `storePrivate`;
otherwise look the id up in the store (counted by `lookups`).  When the
lookup returns without error and finds the record, optionally complete its
README and continue with the rest of the page.  When the lookup errs or
finds nothing, the source executes `return addNewRepo(repo, sess)`, ending
the processing of the whole page after this single insert attempt. -/
def syncPage (cfg : Config) (env : Env) : List StarredRepo → SyncState → SyncState × Option String
  | [], st => (st, none)
  | sr :: rest, st =>
    let repo := { sr.Repo with StarredAt := sr.StarredAt }
    if repo.Private && !cfg.storePrivate then
      syncPage cfg env rest st
    else
      let st1 := { st with lookups := st.lookups + 1 }
      if env.lookupFail repo.ID then
        addNewRepo cfg env repo st1
      else
        match findRepo st1.store repo.ID with
        | some r =>
          let st2 := if cfg.getReadme then updateRepoReadme env r st1 else st1
          syncPage cfg env rest st2
        | none => addNewRepo cfg env repo st1

/-- Outcome of one process run, as observed at the boundary: whether the
run died on the offline-export precondition, the final store contents, the
two tallies `main` prints (src/main.go lines 198-199), the values of the
global counters, the JSON export if one was produced, the value returned
by the page walk, and the lookup instrumentation counter. -/
structure MainOutcome where
  fatal : Bool
  store : List Repository
  reportedNewStars : Nat
  reportedUpdatedStars : Nat
  newStars : Nat
  updatedStars : Nat
  exported : Option (List Repository)
  syncResult : WalkResult
  lookups : Nat
  deriving DecidableEq

/-- The synchronization phase of `main` (src/main.go lines 171-202): when
`skipUpdate` is off, drive the page walk with the `syncPage` callback,
otherwise leave the state untouched. -/
def mainSyncState (cfg : Config) (env : Env) (fuel : Nat) (st0 : SyncState) :
    SyncState × WalkResult :=
  if !cfg.skipUpdate then
    let res := fetchAllStarredRepos env.remote (syncPage cfg env) fuel startURL st0
    (res.1, res.2.2)
  else (st0, WalkResult.done none)

/-- `main` (src/main.go lines 144-210).  If JSON export is requested in
offline mode and the database file does not exist, the process dies
immediately (lines 159-163) with no further work.  Otherwise it runs the
synchronization phase and, when requested, exports the store.  The local
`newStars := 0` at line 171 shadows the global counter incremented inside
`addNewRepo`, so the printed new-tally is this local, still-zero variable,
while the printed updated-tally is the global `updatedStars`. -/
def runMain (cfg : Config) (env : Env) (fuel : Nat) (initStore : List Repository) : MainOutcome :=
  if cfg.skipUpdate && cfg.jsonFlag && !env.dbFileExists then
    { fatal := true, store := initStore, reportedNewStars := 0, reportedUpdatedStars := 0,
      newStars := 0, updatedStars := 0, exported := none,
      syncResult := WalkResult.done none, lookups := 0 }
  else
    let st0 : SyncState := { store := initStore, newStars := 0, updatedStars := 0, lookups := 0 }
    let localNewStars : Nat := 0
    let sync := mainSyncState cfg env fuel st0
    let st1 := sync.1
    { fatal := false, store := st1.store, reportedNewStars := localNewStars,
      reportedUpdatedStars := st1.updatedStars, newStars := st1.newStars,
      updatedStars := st1.updatedStars,
      exported := if cfg.jsonFlag then some st1.store else none,
      syncResult := sync.2, lookups := st1.lookups }

/-- A public repository record with id `i` and no README, used to build
concrete remote collections. -/
def mkRepo (i : Nat) : Repository :=
  { ID := i, Name := "r", HTMLURL := "u", Description := "d", CreatedAt := 0,
    UpdatedAt := 0, PushedAt := 0, StargazersCount := 0, Language := "go",
    FullName := "o/r", Topics := [], IsTemplate := false, Private := false,
    StarredAt := 0, Readme := { string := "", valid := false } }

/-- A wire record for `mkRepo i`, starred at instant 1. -/
def mkSR (i : Nat) : StarredRepo := { Repo := mkRepo i, StarredAt := 1 }

/-- Flags of a plain `gh-stars-exporter` run: no private storage, no skip,
no JSON, no enrichment. -/
def cfgDefault : Config :=
  { storePrivate := false, skipUpdate := false, jsonFlag := false, getReadme := false }

/-- The remote of the two-page scenario: page one serves 100 public
records (ids 0-99) and links to page two, which serves one record (id 100)
and carries no next relation. -/
def remoteTwoPages : String → FetchOutcome := fun url =>
  if url = startURL then
    FetchOutcome.resp
      { status := 200, body := Except.ok ((List.range 100).map mkSR),
        link := "<page2>; rel=\"next\"" }
  else if url = "page2" then
    FetchOutcome.resp { status := 200, body := Except.ok [mkSR 100], link := "" }
  else FetchOutcome.doErr "unexpected URL"

/-- Environment of the two-page scenario: database present, no lookup
errors, no README available anywhere. -/
def envTwoPages : Env :=
  { dbFileExists := true, remote := remoteTwoPages,
    readmeOf := fun _ => Except.error "no readme found", lookupFail := fun _ => false }

/-- The remote of the idempotence scenario: a single page with two public
records (ids 0 and 1). -/
def remoteOnePage : String → FetchOutcome := fun url =>
  if url = startURL then
    FetchOutcome.resp { status := 200, body := Except.ok [mkSR 0, mkSR 1], link := "" }
  else FetchOutcome.doErr "unexpected URL"

/-- Environment of the idempotence scenario. -/
def envOnePage : Env :=
  { dbFileExists := true, remote := remoteOnePage,
    readmeOf := fun _ => Except.error "no readme found", lookupFail := fun _ => false }

/-- A remote whose every response carries HTTP status 500 together with a
next relation the walk would follow if it continued. -/
def remoteStatus500 : String → FetchOutcome := fun _ =>
  FetchOutcome.resp { status := 500, body := Except.ok [], link := "<more>; rel=\"next\"" }

/-- Environment of the lookup-error scenario: the store lookup fails with
a database error for every id, while the remote serves a single page with
the single record id 7. -/
def envLookupErr : Env :=
  { dbFileExists := true,
    remote := fun url =>
      if url = startURL then
        FetchOutcome.resp { status := 200, body := Except.ok [mkSR 7], link := "" }
      else FetchOutcome.doErr "unexpected URL",
    readmeOf := fun _ => Except.error "no readme found", lookupFail := fun _ => true }

/-- Trivial consumer: a stateless iterator that never aborts. -/
def iterUnit : List StarredRepo → Unit → Unit × Option String := fun _ s => (s, none)

/-- A stored record with id 7 whose README is already valid. -/
def repoWithReadme : Repository :=
  { mkRepo 7 with Readme := { string := "OLD", valid := true } }

/-- Flags of a run with enrichment enabled. -/
def cfgReadme : Config :=
  { storePrivate := false, skipUpdate := false, jsonFlag := false, getReadme := true }

/-- Environment whose remote serves one page containing record 7 and whose
README resolution now yields different content. -/
def envReadme : Env :=
  { dbFileExists := true,
    remote := fun url =>
      if url = startURL then
        FetchOutcome.resp { status := 200, body := Except.ok [mkSR 7], link := "" }
      else FetchOutcome.doErr "unexpected URL",
    readmeOf := fun _ => Except.ok "NEW", lookupFail := fun _ => false }

/-- A private starred repository. -/
def srPrivate : StarredRepo :=
  { Repo := { mkRepo 3 with Private := true }, StarredAt := 1 }

/-- An empty synchronization state. -/
def stEmpty : SyncState := { store := [], newStars := 0, updatedStars := 0, lookups := 0 }

/-- A probe for which the third candidate, docs/README.md, is the first to
succeed (the enrichment scenario of the specification). -/
def probeDocs : String → ProbeOutcome := fun f =>
  if f = "docs/README.md" then ProbeOutcome.resp 200 (Except.ok "# Hi")
  else ProbeOutcome.resp 404 (Except.ok "")

/-- A probe whose first candidate, README.md, answers 200 but whose body
read then fails — a transport failure on that candidate — while every
later candidate would succeed outright. -/
def probeReadAbort : String → ProbeOutcome := fun f =>
  if f = "README.md" then ProbeOutcome.resp 200 (Except.error "read timeout")
  else ProbeOutcome.resp 200 (Except.ok "# Hi")

/-- The two pages served by `remoteTwoPages`, tagged with their URLs. -/
def pagesTwo : List (String × List StarredRepo) :=
  [(startURL, (List.range 100).map mkSR), ("page2", [mkSR 100])]

/-- Flags of an offline JSON export run. -/
def cfgOffline : Config :=
  { storePrivate := false, skipUpdate := true, jsonFlag := true, getReadme := false }

/-- Environment in which the database file does not exist. -/
def envNoDb : Env :=
  { dbFileExists := false, remote := fun _ => FetchOutcome.doErr "offline",
    readmeOf := fun _ => Except.error "offline", lookupFail := fun _ => false }

/-- The chain of fetch responses the walk will follow: starting from a URL,
each response is a 200 page that decodes, and the `next` relation extracted
from its Link header leads to the rest of the chain; the chain ends exactly
when the extracted URL is empty. -/
inductive Chain (remote : String → FetchOutcome) :
    String → List (String × List StarredRepo) → Prop
  | nil : Chain remote "" []
  | cons : ∀ (url : String) (r : PageResp) (repos : List StarredRepo)
      (rest : List (String × List StarredRepo)),
      url ≠ "" → remote url = FetchOutcome.resp r → r.status = 200 →
      r.body = Except.ok repos → Chain remote (getNextPageURL r.link) rest →
      Chain remote url ((url, repos) :: rest)

/-- A record found by id carries that id. -/
theorem findRepo_some_id {store : List Repository} {i : Nat} {r : Repository}
    (h : findRepo store i = some r) : r.ID = i := by
  have hp := List.find?_some h
  simpa using hp

/-- Appending a record to the store does not change a lookup that already
finds a record. -/
theorem findRepo_append (store : List Repository) (x : Repository) (i : Nat) (r : Repository)
    (h : findRepo store i = some r) : findRepo (store ++ [x]) i = some r := by
  unfold findRepo at h ⊢
  rw [List.find?_append, h]
  rfl

/-- Updating the records with a different id does not change the lookup. -/
theorem findRepo_updateById (store : List Repository) (j : Nat) (x : Repository) (i : Nat)
    (hji : j ≠ i) (hx : x.ID = j) : findRepo (updateById store j x) i = findRepo store i := by
  induction store with
  | nil => rfl
  | cons a as ih =>
    simp only [findRepo, updateById, List.map_cons] at ih ⊢
    by_cases ha : a.ID = j
    · have h3 : (j == i) = false := by simpa using hji
      simp only [ha, hx, beq_self_eq_true, if_true, List.find?, h3]
      exact ih
    · have h1 : (a.ID == j) = false := by simpa using ha
      simp only [h1, Bool.false_eq_true, if_false, List.find?]
      cases hai : (a.ID == i)
      · simpa [hai] using ih
      · simp [hai]

/-- `addNewRepo` never disturbs a lookup that already finds a record: a
failed insert leaves the store alone, and a successful insert appends. -/
theorem addNewRepo_preserves (cfg : Config) (env : Env) (repo : Repository) (st : SyncState)
    (i : Nat) (r : Repository) (h : findRepo st.store i = some r) :
    findRepo (addNewRepo cfg env repo st).1.store i = some r := by
  unfold addNewRepo
  cases hf : findRepo st.store
      (if cfg.getReadme then
        match env.readmeOf repo.FullName with
        | Except.error _ => repo
        | Except.ok rd => { repo with Readme := { string := rd, valid := true } }
      else repo).ID with
  | some x => simpa [hf] using h
  | none => simpa [hf] using findRepo_append st.store _ i r h

/-- `updateRepoReadme`, called on a record `r2` that the store lookup by
its own id returns, never disturbs a record whose README is already
valid. -/
theorem updateRepoReadme_preserves (env : Env) (r2 : Repository) (st : SyncState)
    (i : Nat) (r : Repository) (h : findRepo st.store i = some r)
    (hv : r.Readme.valid = true) (hr2 : findRepo st.store r2.ID = some r2) :
    findRepo (updateRepoReadme env r2 st).store i = some r := by
  unfold updateRepoReadme
  by_cases hval : r2.Readme.valid = true
  · simp [hval, h]
  · have hne : r2.ID ≠ i := by
      intro hid
      rw [hid, h] at hr2
      cases hr2
      exact hval hv
    cases henv : env.readmeOf r2.FullName with
    | error e => simp [hval, henv, h]
    | ok rd =>
      simp only [hval, Bool.false_eq_true, if_false, henv]
      rw [findRepo_updateById st.store r2.ID
        { r2 with Readme := { string := rd, valid := true } } i hne rfl]
      exact h

/-- The page callback never disturbs a stored record whose README is
already valid: the record is either found and left alone, or another
record's processing only appends or rewrites records with other ids. -/
theorem syncPage_preserves (cfg : Config) (env : Env) (i : Nat) (r : Repository)
    (hv : r.Readme.valid = true) :
    ∀ (recs : List StarredRepo) (st : SyncState), findRepo st.store i = some r →
      findRepo (syncPage cfg env recs st).1.store i = some r := by
  intro recs
  induction recs with
  | nil => intro st h; exact h
  | cons sr rest ih =>
    intro st h
    unfold syncPage
    by_cases hpriv : ({ sr.Repo with StarredAt := sr.StarredAt }.Private && !cfg.storePrivate) = true
    · simp only [hpriv, if_true]
      exact ih st h
    · simp only [hpriv, if_false]
      by_cases hlf : env.lookupFail { sr.Repo with StarredAt := sr.StarredAt }.ID = true
      · simp only [hlf, if_true]
        exact addNewRepo_preserves cfg env _ _ i r h
      · simp only [hlf, if_false]
        cases hfind : findRepo st.store { sr.Repo with StarredAt := sr.StarredAt }.ID with
        | none =>
          simp only [hfind]
          exact addNewRepo_preserves cfg env _ _ i r h
        | some r2 =>
          simp only [hfind]
          have hid : r2.ID = { sr.Repo with StarredAt := sr.StarredAt }.ID :=
            findRepo_some_id hfind
          have hr2 : findRepo st.store r2.ID = some r2 := by rw [hid]; exact hfind
          by_cases hgr : cfg.getReadme = true
          · simp only [hgr, if_true]
            exact ih _ (updateRepoReadme_preserves env r2 { st with lookups := st.lookups + 1 }
              i r h hv hr2)
          · simp only [hgr, if_false]
            exact ih _ h

/-- The page walk preserves any invariant of the consumer state that every
iterator call preserves. -/
theorem walk_preserves {σ : Type} (P : σ → Prop) (remote : String → FetchOutcome)
    (iterator : List StarredRepo → σ → σ × Option String)
    (hiter : ∀ p s, P s → P (iterator p s).1) :
    ∀ (fuel : Nat) (url : String) (st : σ), P st →
      P (fetchAllStarredRepos remote iterator fuel url st).1 := by
  intro fuel
  induction fuel with
  | zero => intro url st h; exact h
  | succ fuel ih =>
    intro url st h
    unfold fetchAllStarredRepos
    split
    · exact h
    · split
      · exact h
      · split
        · exact h
        · split
          · exact h
          · next repos heqbody =>
            split
            · next st1 e heq =>
              have hp := hiter repos st h
              rw [heq] at hp
              exact hp
            · next st1 heq =>
              have hp := hiter repos st h
              rw [heq] at hp
              exact ih _ st1 hp

/-- A skipped candidate adds one performed request and defers to the rest
of the list. -/
theorem getReadmeContent_skip (probe : String → ProbeOutcome) (f : String) (rest : List String)
    (h : probeSkipped (probe f) = true) :
    getReadmeContent probe (f :: rest) =
      ((getReadmeContent probe rest).1 + 1, (getReadmeContent probe rest).2) := by
  cases hp : probe f with
  | newReqErr e =>
    rw [hp] at h
    simp [probeSkipped] at h
  | doErr e => simp [getReadmeContent, hp]
  | resp status readBody =>
    rw [hp] at h
    have hs : ¬ status = 200 := by simpa [probeSkipped] using h
    simp [getReadmeContent, hp, hs]

/-- When the candidates before index `n` are all skipped and the one at
index `n` answers 200, the resolver performs exactly `n + 1` requests and
returns the outcome of reading that candidate's body — the body itself on
a clean read, the read error otherwise. -/
theorem getReadmeContent_first_resp (probe : String → ProbeOutcome) :
    ∀ (files : List String) (n : Nat) (res : Except String String) (hn : n < files.length),
      (∀ i (h : i < n), probeSkipped (probe (files.get ⟨i, Nat.lt_trans h hn⟩)) = true) →
      probe (files.get ⟨n, hn⟩) = ProbeOutcome.resp 200 res →
      getReadmeContent probe files = (n + 1, res) := by
  intro files
  induction files with
  | nil => intro n res hn; exact absurd hn (Nat.not_lt_zero n)
  | cons f rest ih =>
    intro n res hn hfail hsucc
    cases n with
    | zero =>
      have hget : (f :: rest).get ⟨0, hn⟩ = f := rfl
      rw [hget] at hsucc
      cases res with
      | ok content => simp [getReadmeContent, hsucc]
      | error e => simp [getReadmeContent, hsucc]
    | succ m =>
      have hm : m < rest.length := Nat.lt_of_succ_lt_succ hn
      have hget : (f :: rest).get ⟨m + 1, hn⟩ = rest.get ⟨m, hm⟩ := rfl
      rw [hget] at hsucc
      have hhead : probeSkipped (probe f) = true := hfail 0 (Nat.succ_pos m)
      have hrec : getReadmeContent probe rest = (m + 1, res) := by
        refine ih m res hm ?_ hsucc
        intro i hi
        exact hfail (i + 1) (Nat.succ_lt_succ hi)
      rw [getReadmeContent_skip probe f rest hhead, hrec]

/-- When the candidates before index `n` are all skipped and building the
request for the one at index `n` fails, the resolver aborts with that
error after the `n` requests already performed. -/
theorem getReadmeContent_newReqAbort (probe : String → ProbeOutcome) :
    ∀ (files : List String) (n : Nat) (e : String) (hn : n < files.length),
      (∀ i (h : i < n), probeSkipped (probe (files.get ⟨i, Nat.lt_trans h hn⟩)) = true) →
      probe (files.get ⟨n, hn⟩) = ProbeOutcome.newReqErr e →
      getReadmeContent probe files = (n, Except.error e) := by
  intro files
  induction files with
  | nil => intro n e hn; exact absurd hn (Nat.not_lt_zero n)
  | cons f rest ih =>
    intro n e hn hfail habort
    cases n with
    | zero =>
      have hget : (f :: rest).get ⟨0, hn⟩ = f := rfl
      rw [hget] at habort
      simp [getReadmeContent, habort]
    | succ m =>
      have hm : m < rest.length := Nat.lt_of_succ_lt_succ hn
      have hget : (f :: rest).get ⟨m + 1, hn⟩ = rest.get ⟨m, hm⟩ := rfl
      rw [hget] at habort
      have hhead : probeSkipped (probe f) = true := hfail 0 (Nat.succ_pos m)
      have hrec : getReadmeContent probe rest = (m, Except.error e) := by
        refine ih m e hm ?_ habort
        intro i hi
        exact hfail (i + 1) (Nat.succ_lt_succ hi)
      rw [getReadmeContent_skip probe f rest hhead, hrec]

/-- When every candidate is skipped, the resolver probes the whole list
and returns the not-found error. -/
theorem getReadmeContent_all_skip (probe : String → ProbeOutcome) :
    ∀ files : List String, (∀ f ∈ files, probeSkipped (probe f) = true) →
      getReadmeContent probe files = (files.length, Except.error "no readme found") := by
  intro files
  induction files with
  | nil => intro hfail; rfl
  | cons f rest ih =>
    intro hfail
    rw [getReadmeContent_skip probe f rest (hfail f (List.mem_cons_self f rest)),
      ih (fun g hg => hfail g (List.mem_cons_of_mem f hg))]
    rfl

/-- The response chain starting from a given URL is unique. -/
theorem chain_unique {remote : String → FetchOutcome} :
    ∀ {u : String} {l1 : List (String × List StarredRepo)}, Chain remote u l1 →
      ∀ {l2 : List (String × List StarredRepo)}, Chain remote u l2 → l1 = l2 := by
  intro u l1 h1
  induction h1 with
  | nil =>
    intro l2 h2
    cases h2 with
    | nil => rfl
    | cons url r repos rest hne => exact absurd rfl hne
  | cons url r repos rest hne hrem hst hbody hrest ih =>
    intro l2 h2
    cases h2 with
    | nil => exact absurd rfl hne
    | cons url2 r2 repos2 rest2 hne2 hrem2 hst2 hbody2 hrest2 =>
      rw [hrem] at hrem2
      cases hrem2
      rw [hbody] at hbody2
      cases hbody2
      rw [ih hrest2]

/-- Every page occurring in a chain starts a chain of its own, no longer
than the containing one. -/
theorem chain_mem {remote : String → FetchOutcome} :
    ∀ {v : String} {l : List (String × List StarredRepo)}, Chain remote v l →
      ∀ {u : String} {page : List StarredRepo}, (u, page) ∈ l →
        ∃ tail, Chain remote u ((u, page) :: tail) ∧ tail.length + 1 ≤ l.length := by
  intro v l h
  induction h with
  | nil => intro u page hm; cases hm
  | cons url r repos rest hne hrem hst hbody hrest ih =>
    intro u page hm
    cases hm with
    | head =>
      exact ⟨rest, Chain.cons url r repos rest hne hrem hst hbody hrest, Nat.le_refl _⟩
    | tail b hm2 =>
      obtain ⟨tail, hc, hlen⟩ := ih hm2
      exact ⟨tail, hc, Nat.le_succ_of_le hlen⟩

/-- The URLs along a chain are pairwise distinct: a repeated URL would
start two chains of different lengths, contradicting uniqueness. -/
theorem chain_nodup {remote : String → FetchOutcome} :
    ∀ {u : String} {l : List (String × List StarredRepo)}, Chain remote u l →
      (l.map Prod.fst).Nodup := by
  intro u l h
  induction h with
  | nil => exact List.nodup_nil
  | cons url r repos rest hne hrem hst hbody hrest ih =>
    simp only [List.map_cons, List.nodup_cons]
    refine ⟨?_, ih⟩
    intro hmem
    simp only [List.mem_map] at hmem
    obtain ⟨p, hp, hfst⟩ := hmem
    have hp2 : (url, p.2) ∈ rest := by
      rw [← hfst]
      simpa using hp
    obtain ⟨tail, hc, hlen⟩ := chain_mem hrest hp2
    have heq := chain_unique hc (Chain.cons url r repos rest hne hrem hst hbody hrest)
    injection heq with heq1 heq2
    rw [heq2] at hlen
    exact Nat.not_succ_le_self rest.length hlen

/-- With enough fuel, the walk follows exactly the chain, hands every page
of it to the iterator in order, and ends with the nil-error return, for any
consumer whose iterator does not abort. -/
theorem walk_of_chain {σ : Type} {remote : String → FetchOutcome}
    {iterator : List StarredRepo → σ → σ × Option String}
    (hiter : ∀ p s, (iterator p s).2 = none) :
    ∀ {url : String} {pages : List (String × List StarredRepo)},
      Chain remote url pages → ∀ st : σ,
        (fetchAllStarredRepos remote iterator (pages.length + 1) url st).2 =
          (pages, WalkResult.done none) := by
  intro url pages h
  induction h with
  | nil => intro st; rfl
  | cons url r repos rest hne hrem hst hbody hrest ih =>
    intro st
    rw [List.length_cons]
    unfold fetchAllStarredRepos
    simp only [hne, if_false, hrem, hst, hbody, ne_eq]
    cases hit : iterator repos st with
    | mk st1 o =>
      have ho : o = none := by
        have h2 := hiter repos st
        rw [hit] at h2
        exact h2
      subst ho
      simp only [hit]
      have hrec := ih st1
      simp [hrec]

/-- Claim C1, evaluated at its own scenario.  The claim says that starting
from an empty store, a remote collection of 101 public records across two
pages yields 101 inserts, a reported new-tally of 101 and an updated-tally
of 0.  The code disagrees: the page callback executes
`return addNewRepo(repo, sess)` inside the per-record loop (src/main.go
line 193), so only the first absent record of each page is inserted — the
store ends with 2 records and the insert counter reaches 2 — and the
printed new-tally is the local `newStars := 0` of line 171 that shadows
the global counter, hence 0. -/
theorem C1_sync_scenario_bug :
    (runMain cfgDefault envTwoPages 3 []).store.length = 2 ∧
    (runMain cfgDefault envTwoPages 3 []).newStars = 2 ∧
    (runMain cfgDefault envTwoPages 3 []).reportedNewStars = 0 ∧
    (runMain cfgDefault envTwoPages 3 []).reportedUpdatedStars = 0 ∧
    (runMain cfgDefault envTwoPages 3 []).syncResult = WalkResult.done none :=
  ⟨rfl, rfl, rfl, rfl, rfl⟩

/-- Claim C2, evaluated at a two-record remote.  The claim says a second
synchronization run against an unchanged remote performs zero inserts and
zero updates.  Because the first run inserts only the first absent record
of the page (the early-return at src/main.go line 193), the second run
still finds record 1 absent and performs one insert. -/
theorem C2_idempotence_bug :
    (runMain cfgDefault envOnePage 2 []).newStars = 1 ∧
    (runMain cfgDefault envOnePage 2 (runMain cfgDefault envOnePage 2 []).store).newStars = 1 ∧
    (runMain cfgDefault envOnePage 2 (runMain cfgDefault envOnePage 2 []).store).updatedStars
      = 0 :=
  ⟨rfl, rfl, rfl⟩

/-- Claim C3: a stored record whose README is present is never mutated by
any later run — for every configuration (enrichment included), environment
(remote content changes included), fuel and initial store, a record found
with a valid README is still found, unchanged, after the run. -/
theorem C3_readme_monotone (cfg : Config) (env : Env) (fuel : Nat) (init : List Repository)
    (i : Nat) (r : Repository) (hfind : findRepo init i = some r)
    (hv : r.Readme.valid = true) :
    findRepo (runMain cfg env fuel init).store i = some r := by
  unfold runMain
  split
  · exact hfind
  · show findRepo (mainSyncState cfg env fuel
      { store := init, newStars := 0, updatedStars := 0, lookups := 0 }).1.store i = some r
    unfold mainSyncState
    split
    · exact walk_preserves (fun s => findRepo s.store i = some r) env.remote (syncPage cfg env)
        (fun p s hp => syncPage_preserves cfg env i r hv p s hp) fuel startURL
        { store := init, newStars := 0, updatedStars := 0, lookups := 0 } hfind
    · exact hfind

/-- Witness for C3: an enrichment-enabled run whose remote now resolves
different README content leaves the already-enriched record 7 intact. -/
theorem C3_readme_monotone_witness :
    findRepo (runMain cfgReadme envReadme 2 [repoWithReadme]).store 7 = some repoWithReadme :=
  C3_readme_monotone cfgReadme envReadme 2 [repoWithReadme] 7 repoWithReadme rfl rfl

/-- Claim C4: a private record with private storage disabled is skipped
before anything happens — processing the page with the record is the same
as processing the page without it, for every store state, environment and
enrichment setting; in particular no store mutation occurs and the lookup
counter does not move, so the check precedes any store lookup. -/
theorem C4_privacy_filter (cfg : Config) (env : Env) (sr : StarredRepo)
    (rest : List StarredRepo) (st : SyncState)
    (hp : sr.Repo.Private = true) (hs : cfg.storePrivate = false) :
    syncPage cfg env (sr :: rest) st = syncPage cfg env rest st := by
  have hcond : ({ sr.Repo with StarredAt := sr.StarredAt }.Private && !cfg.storePrivate)
      = true := by
    simp [hp, hs]
  simp only [syncPage]
  rw [if_pos hcond]

/-- Witness for C4: a concrete private record under the default flags. -/
theorem C4_privacy_filter_witness :
    syncPage cfgDefault envOnePage [srPrivate] stEmpty =
      syncPage cfgDefault envOnePage [] stEmpty :=
  C4_privacy_filter cfgDefault envOnePage srPrivate [] stEmpty rfl rfl

/-- Claim C5, evaluated at a remote answering status 500.  The claim says a
non-success page status makes the walk abort and propagate a non-nil
error.  The walk does abort — no page is delivered and the next relation
is not followed — but src/main.go line 278 executes `return err` at a
point where `err` is nil, so the caller observes a nil error: a silent
successful termination, contradicting the claim. -/
theorem C5_status_nil_error_bug :
    fetchAllStarredRepos remoteStatus500 iterUnit 5 startURL () =
      ((), [], WalkResult.done none) :=
  rfl

/-- Claim C6, evaluated at a store whose lookup always fails.  The claim
says a lookup error aborts the whole synchronization and is never treated
as "record absent".  In the code the error branch of `res.One` falls
through to `addNewRepo` (src/main.go lines 185-193), so the record is
inserted as if absent and the run ends without any error. -/
theorem C6_lookup_error_bug :
    (runMain cfgDefault envLookupErr 2 []).newStars = 1 ∧
    (runMain cfgDefault envLookupErr 2 []).store = [{ mkRepo 7 with StarredAt := 1 }] ∧
    (runMain cfgDefault envLookupErr 2 []).syncResult = WalkResult.done none :=
  ⟨rfl, rfl, rfl⟩

/-- Claim C7, refuted as stated.  The claim says a transport failure on
one candidate causes the next candidate to be probed rather than
aborting, and that anything short of a success ends in the not-found
outcome only after the whole list.  Under `probeReadAbort` the first
candidate's body read fails — a transport failure on that candidate, for
example its `Client.Timeout` expiring during `io.ReadAll` — while the
second candidate would succeed with body "# Hi"; yet the resolver stops
after a single probe and returns the read error (src/main.go lines
365-368), rather than probing on to the second candidate's body. -/
theorem C7_transport_abort_counterexample :
    getReadmeContent probeReadAbort readmeFiles ≠ (2, Except.ok "# Hi") ∧
    getReadmeContent probeReadAbort readmeFiles = (1, Except.error "read timeout") :=
  ⟨by decide, rfl⟩

/-- Claim C7, as amended.  Over the fixed candidate list `readmeFiles`: a
request-level transport failure (a `client.Do` error) or a non-success
status on a candidate causes the next candidate to be probed rather than
aborting, so that when the candidate at index `n` is the first to escape
such failures, (a) a success response with a clean body read means
exactly `n + 1` probes and that candidate's body, (b) a success response
whose body read fails aborts the resolver after those `n + 1` probes with
the read error, and (c) a request-construction failure aborts it after
the `n` probes already made, with that error; only when every candidate
fails at request level does the resolver return the not-found outcome,
after probing the whole list. -/
theorem C7_readme_fallback :
    (∀ (probe : String → ProbeOutcome) (n : Nat) (body : String) (hn : n < readmeFiles.length),
      (∀ i (h : i < n), probeSkipped (probe (readmeFiles.get ⟨i, Nat.lt_trans h hn⟩)) = true) →
      probe (readmeFiles.get ⟨n, hn⟩) = ProbeOutcome.resp 200 (Except.ok body) →
      getReadmeContent probe readmeFiles = (n + 1, Except.ok body)) ∧
    (∀ (probe : String → ProbeOutcome) (n : Nat) (e : String) (hn : n < readmeFiles.length),
      (∀ i (h : i < n), probeSkipped (probe (readmeFiles.get ⟨i, Nat.lt_trans h hn⟩)) = true) →
      probe (readmeFiles.get ⟨n, hn⟩) = ProbeOutcome.resp 200 (Except.error e) →
      getReadmeContent probe readmeFiles = (n + 1, Except.error e)) ∧
    (∀ (probe : String → ProbeOutcome) (n : Nat) (e : String) (hn : n < readmeFiles.length),
      (∀ i (h : i < n), probeSkipped (probe (readmeFiles.get ⟨i, Nat.lt_trans h hn⟩)) = true) →
      probe (readmeFiles.get ⟨n, hn⟩) = ProbeOutcome.newReqErr e →
      getReadmeContent probe readmeFiles = (n, Except.error e)) ∧
    (∀ probe : String → ProbeOutcome, (∀ f ∈ readmeFiles, probeSkipped (probe f) = true) →
      getReadmeContent probe readmeFiles = (readmeFiles.length, Except.error "no readme found")) :=
  ⟨fun probe n body hn hfail hsucc =>
     getReadmeContent_first_resp probe readmeFiles n (Except.ok body) hn hfail hsucc,
   fun probe n e hn hfail habort =>
     getReadmeContent_first_resp probe readmeFiles n (Except.error e) hn hfail habort,
   fun probe n e hn hfail habort =>
     getReadmeContent_newReqAbort probe readmeFiles n e hn hfail habort,
   fun probe hfail => getReadmeContent_all_skip probe readmeFiles hfail⟩

/-- Witness for C7 as amended: the third candidate (docs/README.md) is the
first past two non-success statuses, so exactly 3 probes happen and its
body is returned. -/
theorem C7_readme_fallback_witness :
    getReadmeContent probeDocs readmeFiles = (3, Except.ok "# Hi") :=
  C7_readme_fallback.1 probeDocs 2 "# Hi" (by decide) (by decide) (by decide)

/-- The concrete two-page remote follows the chain of its own pages. -/
theorem chainTwoPages : Chain remoteTwoPages startURL pagesTwo := by
  refine Chain.cons startURL
    { status := 200, body := Except.ok ((List.range 100).map mkSR),
      link := "<page2>; rel=\"next\"" }
    ((List.range 100).map mkSR) [("page2", [mkSR 100])] (by decide) rfl rfl rfl ?_
  have h1 : getNextPageURL "<page2>; rel=\"next\"" = "page2" := rfl
  rw [h1]
  refine Chain.cons "page2" { status := 200, body := Except.ok [mkSR 100], link := "" }
    [mkSR 100] [] (by decide) rfl rfl rfl ?_
  exact Chain.nil

/-- Claim C8: whenever the responses form a terminating chain of `next`
relations, the page walk terminates within fuel one past the chain length,
hands the chain's pages to the consumer in server order with the nil-error
return, and never visits a URL twice. -/
theorem C8_pagination_order {σ : Type} (remote : String → FetchOutcome)
    (iterator : List StarredRepo → σ → σ × Option String) (url : String)
    (pages : List (String × List StarredRepo)) (st : σ)
    (hchain : Chain remote url pages)
    (hiter : ∀ p s, (iterator p s).2 = none) :
    (fetchAllStarredRepos remote iterator (pages.length + 1) url st).2 =
      (pages, WalkResult.done none) ∧ (pages.map Prod.fst).Nodup :=
  ⟨walk_of_chain hiter hchain st, chain_nodup hchain⟩

/-- Witness for C8: the two-page remote delivers exactly its two pages, in
order, with distinct URLs. -/
theorem C8_pagination_order_witness :
    (fetchAllStarredRepos remoteTwoPages iterUnit (pagesTwo.length + 1) startURL ()).2 =
      (pagesTwo, WalkResult.done none) ∧ (pagesTwo.map Prod.fst).Nodup :=
  C8_pagination_order remoteTwoPages iterUnit startURL pagesTwo () chainTwoPages
    (fun _ _ => rfl)

/-- Claim C9: JSON export requested together with skip-update against a
missing store file dies on the precondition check (src/main.go lines
159-163) — the outcome is the fatal one in which the store is untouched,
nothing is exported and no tally, lookup or sync work happened. -/
theorem C9_offline_precondition (cfg : Config) (env : Env) (fuel : Nat)
    (init : List Repository) (h1 : cfg.skipUpdate = true) (h2 : cfg.jsonFlag = true)
    (h3 : env.dbFileExists = false) :
    runMain cfg env fuel init =
      { fatal := true, store := init, reportedNewStars := 0, reportedUpdatedStars := 0,
        newStars := 0, updatedStars := 0, exported := none,
        syncResult := WalkResult.done none, lookups := 0 } := by
  simp [runMain, h1, h2, h3]

/-- Witness for C9: a concrete offline export against a missing store. -/
theorem C9_offline_precondition_witness :
    runMain cfgOffline envNoDb 1 [] =
      { fatal := true, store := [], reportedNewStars := 0, reportedUpdatedStars := 0,
        newStars := 0, updatedStars := 0, exported := none,
        syncResult := WalkResult.done none, lookups := 0 } :=
  C9_offline_precondition cfgOffline envNoDb 1 [] rfl rfl rfl

/-- Claim C10: for a non-empty topic list none of whose labels contains
the comma delimiter, `Scan` after `Value` recovers exactly the original
list, while for the empty list the round trip yields the one-element list
containing the empty string. -/
theorem C10_topics_round_trip :
    (∀ sl : StringList, sl ≠ [] → (∀ s ∈ sl, ',' ∉ s.data) →
      StringList.Scan (StringList.DriverValue.str (StringList.Value sl)) = Except.ok sl) ∧
    StringList.Scan (StringList.DriverValue.str (StringList.Value [])) = Except.ok [""] := by
  constructor
  · intro sl hne hc
    simp only [StringList.Value, StringList.Scan]
    have hx : ∀ l ∈ sl.map String.data, ',' ∉ l := by
      intro l hl
      obtain ⟨s, hs, rfl⟩ := List.mem_map.1 hl
      exact hc s hs
    have hne2 : sl.map String.data ≠ [] := by
      simpa using hne
    rw [List.splitOn_intercalate (sl.map String.data) ',' hx hne2, List.map_map]
    have hid : (String.mk ∘ String.data) = id := funext fun s => rfl
    rw [hid, List.map_id]
  · rfl

/-- Witness for C10: a concrete comma-free topic list survives the round
trip. -/
theorem C10_topics_round_trip_witness :
    StringList.Scan (StringList.DriverValue.str (StringList.Value ["go", "cli"])) =
      Except.ok ["go", "cli"] :=
  C10_topics_round_trip.1 ["go", "cli"] (by decide) (by decide)

end GhStars
